import Mathlib

/-!
Verification of the ProxyForge print-layout engine (`pdf_gen.py`, `main.py`).

The engine is embedded shallowly:

* raw image byte buffers are `List Nat`;
* the external raster decoder (PIL `Image.open`) is a parameter
  `dec : ByteBuf → Bool` telling whether a buffer decodes;
* canvas mutation (`page.paste`, `draw.rectangle`, `draw.text`) is embedded as
  the list of drawing operations performed on the page, in order;
* the external packer `img2pdf.convert` is modelled from its documented
  behaviour (one page per input image, no re-encoding, error on empty input).
-/

namespace ProxyForge

/-- Raw encoded image bytes.  Python truthiness of `bytes` is emptiness. -/
abbrev ByteBuf := List Nat

/-- The external raster decoder: `dec b = true` iff `Image.open` succeeds. -/
abbrev Decode := ByteBuf → Bool

/-- Resolution, `PPI = 300` in `pdf_gen.py`. -/
def PPI : Nat := 300

/-- Page width in pixels (11 in at 300 PPI). -/
def PAGE_W_PX : Nat := 3300

/-- Page height in pixels (8.5 in at 300 PPI). -/
def PAGE_H_PX : Nat := 2550

/-- Card width in pixels (63 mm at 300 PPI). -/
def CARD_W_PX : Nat := 744

/-- Card height in pixels (88 mm at 300 PPI). -/
def CARD_H_PX : Nat := 1039

/-- Grid columns. -/
def COLS : Nat := 4

/-- Grid rows. -/
def ROWS : Nat := 2

/-- Cards per page, `COLS * ROWS`. -/
def CARDS_PER_PAGE : Nat := COLS * ROWS

/-- Registration mark inset from the page edges. -/
def REG_INSET_PX : Nat := 112

/-- Registration mark size. -/
def REG_SIZE_PX : Nat := 188

/-- Registration mark line thickness. -/
def REG_THICK_PX : Nat := 12

/-- Card grid origin x. -/
def GRID_X : Nat := 150

/-- Card grid origin y. -/
def GRID_Y : Nat := 224

/-- Horizontal slot pitch. -/
def CARD_GAP_X : Nat := 754

/-- Vertical slot pitch. -/
def CARD_GAP_Y : Nat := 1076

/-- An axis-aligned rectangle `[x0, y0, x1, y1]` as passed to
`draw.rectangle`; all registration rectangles are filled black. -/
structure Rect where
  x0 : Int
  y0 : Int
  x1 : Int
  y1 : Int
  deriving DecidableEq, Repr

/-- What `_place_card` pasted: either the opaque placeholder block with its
fixed fill colour, or the (resized) decoded source image. -/
inductive PlaceKind where
  | placeholder (fill : Nat × Nat × Nat)
  | image (src : ByteBuf)
  deriving DecidableEq, Repr

/-- One `page.paste` performed by `_place_card`: top-left `(x, y)` and the
pasted width/height in pixels (the size the image was resized to). -/
structure Placement where
  kind : PlaceKind
  x : Int
  y : Int
  w : Int
  h : Int
  deriving DecidableEq, Repr

/-- Which side of a sheet a page is. -/
inductive Side where
  | front
  | back
  deriving DecidableEq, Repr

/-- The footer label stamped by `_add_label`.  The rendered text is
`"ProxyForge | Page {page} {side} | Print at 100% scale, no fit-to-page"`;
its x position depends on external font metrics, so the label is modelled by
its page number and side. -/
structure LabelSpec where
  page : Nat
  side : Side
  deriving DecidableEq, Repr

/-- A page canvas together with the drawing operations performed on it. -/
structure Page where
  w : Nat
  h : Nat
  bg : Nat × Nat × Nat
  marks : List Rect
  placements : List Placement
  label : Option LabelSpec
  deriving DecidableEq, Repr

/-- Return a blank white landscape letter page at 300 PPI (`_new_page`). -/
def new_page : Page :=
  { w := PAGE_W_PX, h := PAGE_H_PX, bg := (255, 255, 255),
    marks := [], placements := [], label := none }

/-- The five filled rectangles drawn by `_draw_reg_marks`, in drawing order:
top-left filled square, top-right L (horizontal bar then vertical bar),
bottom-left L (horizontal bar then vertical bar). -/
def draw_reg_marks : List Rect :=
  let i : Int := REG_INSET_PX
  let s : Int := REG_SIZE_PX
  let t : Int := REG_THICK_PX
  let W : Int := PAGE_W_PX
  let H : Int := PAGE_H_PX
  let tr_x := W - i - s
  let tr_y := i
  let bl_x := i
  let bl_y := H - i - s
  [ ⟨i, i, i + s, i + s⟩,
    ⟨tr_x, tr_y, tr_x + s, tr_y + t⟩,
    ⟨tr_x + s - t, tr_y, tr_x + s, tr_y + s⟩,
    ⟨bl_x, bl_y + s - t, bl_x + s, bl_y + s⟩,
    ⟨bl_x, bl_y, bl_x + t, bl_y + s⟩ ]

/-- Return the `(x, y)` top-left pixel corner of card slot `index`
(`_card_top_left`).  Python `%` and `//` on `int` with a positive divisor are
`Int.emod` and `Int.ediv`. -/
def card_top_left (index : Int) : Int × Int :=
  let col := index % (COLS : Int)
  let row := index / (COLS : Int)
  let x := (GRID_X : Int) + col * CARD_GAP_X
  let y := (GRID_Y : Int) + row * CARD_GAP_Y
  (x, y)

/-- Decode card image bytes and paste onto the page at `(x, y)`
(`_place_card`).  The `try/except` around `Image.open` becomes a test of the
decode oracle; on failure the fixed-colour placeholder of nominal card size is
pasted at the undisturbed `(x, y)` and the function returns. -/
def place_card (dec : Decode) (img_bytes : ByteBuf) (x y : Int)
    (extend_corners : Int) : Placement :=
  if dec img_bytes = false then
    { kind := .placeholder (38, 38, 51), x := x, y := y,
      w := (CARD_W_PX : Int), h := (CARD_H_PX : Int) }
  else if extend_corners > 0 then
    let ec := extend_corners
    let expanded_w := (CARD_W_PX : Int) + ec * 2
    let expanded_h := (CARD_H_PX : Int) + ec * 2
    { kind := .image img_bytes, x := x - ec, y := y - ec,
      w := expanded_w, h := expanded_h }
  else
    { kind := .image img_bytes, x := x, y := y,
      w := (CARD_W_PX : Int), h := (CARD_H_PX : Int) }

/-- The mirrored slot index computed in the back-page loop of `build_pdf`:
`col = i % COLS`, `row = i // COLS`, `mirrored_col = COLS - 1 - col`,
`mirrored_i = row * COLS + mirrored_col`. -/
def mirrored_index (i : Nat) : Nat :=
  let col := i % COLS
  let row := i / COLS
  let mirrored_col := COLS - 1 - col
  row * COLS + mirrored_col

/-- A JPEG stream produced by `_page_to_jpeg`: the rendered page raster plus
the encoding parameters written into the stream. -/
structure JpegImage where
  content : Page
  width : Nat
  height : Nat
  dpi : Nat × Nat
  quality : Nat
  deriving DecidableEq, Repr

/-- One page of the packed output document: physical size in points and the
embedded JPEG stream. -/
structure PdfPage where
  width_pt : ℚ
  height_pt : ℚ
  image : JpegImage
  deriving DecidableEq, Repr

/-- Encode a PIL image as JPEG bytes for img2pdf (`_page_to_jpeg`): the page
raster is kept verbatim together with the JPEG quality and the 300 PPI dpi
metadata written into the stream. -/
def page_to_jpeg (page : Page) (quality : Nat) : JpegImage :=
  { content := page, width := page.w, height := page.h,
    dpi := (PPI, PPI), quality := quality }

/-- The back-image source chosen for global card index `idx` in `build_pdf`:
`back_images[idx] if back_images and back_images[idx] is not None else
generic_back`.  An empty list is falsy in Python. -/
def back_source (back_images : List (Option ByteBuf))
    (generic_back : Option ByteBuf) (idx : Nat) : Option ByteBuf :=
  if back_images ≠ [] ∧ back_images.getD idx none ≠ none then
    back_images.getD idx none
  else
    generic_back

/-- The front page built for `page_num` in `build_pdf`: blank page,
registration marks, one `_place_card` per occupied slot at the identity
placement index, then the footer label. -/
def front_page (dec : Decode) (front_images : List ByteBuf)
    (extend_corners : Int) (page_num start slots : Nat) : Page :=
  { new_page with
    marks := draw_reg_marks,
    placements := (List.range slots).map (fun i =>
      let xy := card_top_left (Int.ofNat i)
      place_card dec (front_images.getD (start + i) []) xy.1 xy.2
        extend_corners),
    label := some ⟨page_num + 1, Side.front⟩ }

/-- The back page built for `page_num` in `build_pdf`: blank page,
registration marks, then for each occupied slot `i` the chosen back bytes
(per-card back, else generic fallback) are placed at the mirrored slot index
when they are truthy (`if back_bytes:` — non-`None` and non-empty), and
nothing is placed otherwise; finally the footer label. -/
def back_page (dec : Decode) (back_images : List (Option ByteBuf))
    (generic_back : Option ByteBuf) (extend_corners : Int)
    (page_num start slots : Nat) : Page :=
  { new_page with
    marks := draw_reg_marks,
    placements := (List.range slots).filterMap (fun i =>
      let mirrored_i := mirrored_index i
      let back_bytes := back_source back_images generic_back (start + i)
      match back_bytes with
      | some b =>
        if b.isEmpty then none
        else
          let xy := card_top_left (Int.ofNat mirrored_i)
          some (place_card dec b xy.1 xy.2 extend_corners)
      | none => none),
    label := some ⟨page_num + 1, Side.back⟩ }

/-- The `for page_num in range(num_pages)` loop of `build_pdf`, which appends
the front JPEG and then the back JPEG of each page pair to `jpeg_pages`. -/
def jpeg_pages_loop (fj bj : Nat → JpegImage) : Nat → List JpegImage
  | 0 => []
  | n + 1 => jpeg_pages_loop fj bj n ++ [fj n, bj n]

/-- The complete `jpeg_pages` list assembled by `build_pdf` before packing:
`num_pages = ceil(total / CARDS_PER_PAGE)` page pairs, each pair covering the
card range `[start, min(start + CARDS_PER_PAGE, total))`. -/
def jpeg_pages_of (dec : Decode) (front_images : List ByteBuf)
    (back_images : List (Option ByteBuf)) (generic_back : Option ByteBuf)
    (extend_corners : Int) (quality : Nat) : List JpegImage :=
  let total := front_images.length
  let num_pages := (total + CARDS_PER_PAGE - 1) / CARDS_PER_PAGE
  jpeg_pages_loop
    (fun page_num =>
      let start := page_num * CARDS_PER_PAGE
      let stop := min (start + CARDS_PER_PAGE) total
      let slots := stop - start
      page_to_jpeg (front_page dec front_images extend_corners
        page_num start slots) quality)
    (fun page_num =>
      let start := page_num * CARDS_PER_PAGE
      let stop := min (start + CARDS_PER_PAGE) total
      let slots := stop - start
      page_to_jpeg (back_page dec back_images generic_back extend_corners
        page_num start slots) quality)
    num_pages

/-- Inches to PostScript points, `img2pdf.in_to_pt`: one inch is 72 points. -/
def in_to_pt (x : ℚ) : ℚ := x * 72

/-- Modelled from the spec: the document packer (`img2pdf.convert` with a
fixed layout function, an external library).  It packs the JPEG streams one
per output page at exactly the layout's physical page size, embedding each
stream with no further re-encoding, and fails only when the input page
sequence is empty. -/
def img2pdf_convert (layout : ℚ × ℚ) (imgs : List JpegImage) :
    Except String (List PdfPage) :=
  if imgs.isEmpty then
    .error "img2pdf: cannot convert empty list of images"
  else
    .ok (imgs.map (fun im =>
      { width_pt := layout.1, height_pt := layout.2, image := im }))

/-- Build a Silhouette-ready print-and-cut PDF (`build_pdf`).  `paper_size`
is accepted but never read by the body ("reserved for future multi-size
support"). -/
def build_pdf (dec : Decode) (front_images : List ByteBuf)
    (back_images : List (Option ByteBuf))
    (generic_back : Option ByteBuf := none)
    (extend_corners : Int := 10) (quality : Nat := 90)
    (paper_size : String := "letter") : Except String (List PdfPage) :=
  img2pdf_convert (in_to_pt 11, in_to_pt (17 / 2))
    (jpeg_pages_of dec front_images back_images generic_back
      extend_corners quality)

/-- The `/api/pdf` endpoint after card fetching (`api_pdf` in `main.py`):
zip the resolved front/back lists, keep the pairs whose front is present,
reject the request with HTTP 400 when no front survived, and otherwise call
`build_pdf` with the default quality and paper size. -/
def api_pdf_pipeline (dec : Decode) (front_list back_list : List (Option ByteBuf))
    (generic_back : Option ByteBuf) (extend_corners : Int) :
    Except String (List PdfPage) :=
  let pairs := (front_list.zip back_list).filterMap (fun fb =>
    match fb.1 with
    | some f => some (f, fb.2)
    | none => none)
  let fronts := pairs.map Prod.fst
  let backs := pairs.map Prod.snd
  if fronts = [] then
    .error "No cards were successfully downloaded."
  else
    build_pdf dec fronts backs generic_back extend_corners 90 "letter"

/-- Does the rectangle contain the point? -/
def Rect.containsPt (r : Rect) (px py : Int) : Bool :=
  decide (r.x0 ≤ px) && decide (px ≤ r.x1) &&
  decide (r.y0 ≤ py) && decide (py ≤ r.y1)

/-- A fiducial as the spec describes them: a filled square, or an L-shape
made of one horizontal and one vertical bar. -/
inductive Fiducial where
  | filledSquare (x y s : Int)
  | lShape (hbar vbar : Rect)
  deriving DecidableEq, Repr

/-- The rectangles a fiducial is drawn with. -/
def Fiducial.rects : Fiducial → List Rect
  | .filledSquare x y s => [⟨x, y, x + s, y + s⟩]
  | .lShape hbar vbar => [hbar, vbar]

/-- The three fiducials of `_draw_reg_marks`, grouping its five rectangles:
the top-left filled square, the top-right L and the bottom-left L. -/
def reg_fiducials : List Fiducial :=
  let i : Int := REG_INSET_PX
  let s : Int := REG_SIZE_PX
  let t : Int := REG_THICK_PX
  let W : Int := PAGE_W_PX
  let H : Int := PAGE_H_PX
  let tr_x := W - i - s
  let tr_y := i
  let bl_x := i
  let bl_y := H - i - s
  [ .filledSquare i i s,
    .lShape ⟨tr_x, tr_y, tr_x + s, tr_y + t⟩ ⟨tr_x + s - t, tr_y, tr_x + s, tr_y + s⟩,
    .lShape ⟨bl_x, bl_y + s - t, bl_x + s, bl_y + s⟩ ⟨bl_x, bl_y, bl_x + t, bl_y + s⟩ ]

/-- An L-shape opens toward a point when exactly one corner of its bounding
box is covered by neither bar and that open corner is strictly closer to the
point than each of the other three corners. -/
def lShapeOpensToward (hbar vbar : Rect) (cx cy : Int) : Bool :=
  let x0 := min hbar.x0 vbar.x0
  let y0 := min hbar.y0 vbar.y0
  let x1 := max hbar.x1 vbar.x1
  let y1 := max hbar.y1 vbar.y1
  let corners : List (Int × Int) := [(x0, y0), (x1, y0), (x0, y1), (x1, y1)]
  let uncovered := corners.filter (fun c =>
    !(hbar.containsPt c.1 c.2) && !(vbar.containsPt c.1 c.2))
  match uncovered with
  | [c] =>
    let d2 := fun (p : Int × Int) => (p.1 - cx) ^ 2 + (p.2 - cy) ^ 2
    (corners.filter (fun c2 => c2 != c)).all (fun c2 => decide (d2 c < d2 c2))
  | _ => false

/-! Helper lemmas about the page-pair loop. -/

theorem jpeg_pages_loop_length (fj bj : Nat → JpegImage) (n : Nat) :
    (jpeg_pages_loop fj bj n).length = 2 * n := by
  induction n with
  | zero => rfl
  | succ n ih => simp [jpeg_pages_loop, ih]; omega

theorem jpeg_pages_loop_getElem (fj bj : Nat → JpegImage) (n k : Nat)
    (hk : k < 2 * n) :
    (jpeg_pages_loop fj bj n)[k]? =
      some (if k % 2 = 0 then fj (k / 2) else bj (k / 2)) := by
  induction n with
  | zero => omega
  | succ n ih =>
    rw [jpeg_pages_loop, List.getElem?_append, jpeg_pages_loop_length]
    by_cases h : k < 2 * n
    · rw [if_pos h]
      exact ih h
    · rw [if_neg h]
      have hcase : k - 2 * n = 0 ∨ k - 2 * n = 1 := by omega
      rcases hcase with hc | hc
      · have h0 : k % 2 = 0 := by omega
        have h1 : k / 2 = n := by omega
        rw [hc, h1, if_pos h0]
        rfl
      · have h0 : ¬ k % 2 = 0 := by omega
        have h1 : k / 2 = n := by omega
        rw [hc, h1, if_neg h0]
        rfl

theorem jpeg_pages_loop_mem (fj bj : Nat → JpegImage) (n : Nat)
    (x : JpegImage) (hx : x ∈ jpeg_pages_loop fj bj n) :
    ∃ p, p < n ∧ (x = fj p ∨ x = bj p) := by
  induction n with
  | zero => simp [jpeg_pages_loop] at hx
  | succ n ih =>
    rw [jpeg_pages_loop] at hx
    rcases List.mem_append.1 hx with h | h
    · obtain ⟨p, hp, hor⟩ := ih h
      exact ⟨p, by omega, hor⟩
    · rcases List.mem_cons.1 h with h1 | h1
      · exact ⟨n, by omega, Or.inl h1⟩
      · rcases List.mem_cons.1 h1 with h2 | h2
        · exact ⟨n, by omega, Or.inr h2⟩
        · simp at h2

theorem jpeg_pages_of_length (dec : Decode) (fronts : List ByteBuf)
    (backs : List (Option ByteBuf)) (gb : Option ByteBuf) (ec : Int) (q : Nat) :
    (jpeg_pages_of dec fronts backs gb ec q).length =
      2 * ((fronts.length + CARDS_PER_PAGE - 1) / CARDS_PER_PAGE) := by
  simp [jpeg_pages_of, jpeg_pages_loop_length]

theorem build_pdf_ok_of_ne_nil (dec : Decode) (fronts : List ByteBuf)
    (backs : List (Option ByteBuf)) (gb : Option ByteBuf) (ec : Int) (q : Nat)
    (psz : String) (h : fronts ≠ []) :
    build_pdf dec fronts backs gb ec q psz =
      Except.ok ((jpeg_pages_of dec fronts backs gb ec q).map (fun im =>
        { width_pt := in_to_pt 11, height_pt := in_to_pt (17 / 2),
          image := im })) := by
  have h8 : CARDS_PER_PAGE = 8 := rfl
  have hN : 0 < fronts.length := List.length_pos.mpr h
  have hlen := jpeg_pages_of_length dec fronts backs gb ec q
  have hpos : 0 < (jpeg_pages_of dec fronts backs gb ec q).length := by
    rw [hlen, h8]; omega
  have hne : (jpeg_pages_of dec fronts backs gb ec q).isEmpty = false := by
    cases hl : jpeg_pages_of dec fronts backs gb ec q with
    | nil => rw [hl] at hpos; simp at hpos
    | cons a l => rfl
  rw [build_pdf, img2pdf_convert, hne]
  rfl

/-! Claim theorems. -/

/-- C1: for every slot index `i` in `[0, COLS*ROWS)`, the back placement
index `row*COLS + (COLS-1-col)` is an involution and never changes the
row. -/
theorem mirrored_index_involution_and_row (i : Nat) (hi : i < COLS * ROWS) :
    mirrored_index (mirrored_index i) = i ∧
    mirrored_index i / COLS = i / COLS := by
  revert i
  decide

theorem mirrored_index_involution_and_row_witness :
    5 < COLS * ROWS ∧
    (mirrored_index (mirrored_index 5) = 5 ∧
     mirrored_index 5 / COLS = 5 / COLS) :=
  ⟨by decide, mirrored_index_involution_and_row 5 (by decide)⟩

/-- C3: a successfully decoded card placed with `ec > 0` occupies exactly
`(CARD_W_PX + 2*ec) × (CARD_H_PX + 2*ec)` pixels at `(x-ec, y-ec)`; with
`ec = 0` it occupies `CARD_W_PX × CARD_H_PX` at `(x, y)`; in particular for
`ec = 10` it is `764 × 1059` at `(x-10, y-10)`. -/
theorem place_card_decoded_geometry (dec : Decode) (b : ByteBuf)
    (x y ec : Int) (hdec : dec b = true) :
    (ec > 0 → place_card dec b x y ec =
      { kind := .image b, x := x - ec, y := y - ec,
        w := (CARD_W_PX : Int) + 2 * ec, h := (CARD_H_PX : Int) + 2 * ec }) ∧
    (ec = 0 → place_card dec b x y ec =
      { kind := .image b, x := x, y := y, w := 744, h := 1039 }) ∧
    (ec = 10 → place_card dec b x y ec =
      { kind := .image b, x := x - 10, y := y - 10, w := 764, h := 1059 }) := by
  refine ⟨fun hec => ?_, fun hec => ?_, fun hec => ?_⟩
  · simp [place_card, hdec, if_pos hec]
    ring
  · subst hec
    simp [place_card, hdec, CARD_W_PX, CARD_H_PX]
  · subst hec
    simp [place_card, hdec, CARD_W_PX, CARD_H_PX]

theorem place_card_decoded_geometry_witness :
    (fun _ => true : Decode) [0] = true ∧
    (((10 : Int) > 0 → place_card (fun _ => true) [0] 100 200 10 =
      { kind := .image [0], x := 100 - 10, y := 200 - 10,
        w := (CARD_W_PX : Int) + 2 * 10, h := (CARD_H_PX : Int) + 2 * 10 }) ∧
    ((10 : Int) = 0 → place_card (fun _ => true) [0] 100 200 10 =
      { kind := .image [0], x := 100, y := 200, w := 744, h := 1039 }) ∧
    ((10 : Int) = 10 → place_card (fun _ => true) [0] 100 200 10 =
      { kind := .image [0], x := 100 - 10, y := 200 - 10,
        w := 764, h := 1059 })) :=
  ⟨rfl, place_card_decoded_geometry (fun _ => true) [0] 100 200 10 rfl⟩

/-- C4: when the supplied buffer fails to decode, `_place_card` pastes the
opaque fixed-colour placeholder of exactly the nominal slot size
`CARD_W_PX × CARD_H_PX` at the undisturbed `(x, y)`, for any value of
`extend_corners`, and returns normally instead of propagating the error. -/
theorem place_card_decode_failure (dec : Decode) (b : ByteBuf) (x y ec : Int)
    (hdec : dec b = false) :
    place_card dec b x y ec =
      { kind := .placeholder (38, 38, 51), x := x, y := y,
        w := (CARD_W_PX : Int), h := (CARD_H_PX : Int) } := by
  simp [place_card, hdec]

theorem place_card_decode_failure_witness :
    (fun _ => false : Decode) [7] = false ∧
    place_card (fun _ => false) [7] 150 224 10 =
      { kind := .placeholder (38, 38, 51), x := 150, y := 224,
        w := (CARD_W_PX : Int), h := (CARD_H_PX : Int) } :=
  ⟨rfl, place_card_decode_failure (fun _ => false) [7] 150 224 10 rfl⟩

/-- C6 counterexample: `_card_top_left` does not reject an out-of-range
index; for `index = 8`, outside `[0, CARDS_PER_PAGE)`, it returns the
coordinate `(150, 2376)`. -/
theorem card_top_left_out_of_range_returns : card_top_left 8 = (150, 2376) := by
  decide

/-- C6 amended: `_card_top_left` applies the same affine formula to every
integer index without any bounds check; an index outside
`[0, CARDS_PER_PAGE)` is neither rejected nor clamped — it yields a
coordinate distinct from that of every in-range slot. -/
theorem card_top_left_no_reject_no_clamp (i : Int)
    (hi : i < 0 ∨ 8 ≤ i) :
    card_top_left i =
      ((GRID_X : Int) + i % (COLS : Int) * CARD_GAP_X,
       (GRID_Y : Int) + i / (COLS : Int) * CARD_GAP_Y) ∧
    ∀ j : Int, 0 ≤ j → j < 8 → card_top_left i ≠ card_top_left j := by
  refine ⟨rfl, fun j hj0 hj8 heq => ?_⟩
  have hy := congrArg Prod.snd heq
  simp only [card_top_left, COLS, GRID_Y, CARD_GAP_Y] at hy
  omega

theorem card_top_left_no_reject_no_clamp_witness :
    ((8 : Int) < 0 ∨ 8 ≤ (8 : Int)) ∧
    card_top_left 8 ≠ card_top_left 0 :=
  ⟨Or.inr (by norm_num),
   (card_top_left_no_reject_no_clamp 8 (Or.inr (by norm_num))).2 0
     (by norm_num) (by norm_num)⟩

/-- C10: `build_pdf` never reads `paper_size`, so any two paper-size strings
produce identical output with the remaining arguments fixed — an unsupported
paper size is a silent no-op. -/
theorem build_pdf_paper_size_irrelevant (dec : Decode)
    (fronts : List ByteBuf) (backs : List (Option ByteBuf))
    (gb : Option ByteBuf) (ec : Int) (q : Nat) (psz1 psz2 : String) :
    build_pdf dec fronts backs gb ec q psz1 =
      build_pdf dec fronts backs gb ec q psz2 := rfl

theorem jpeg_pages_of_label (dec : Decode) (fronts : List ByteBuf)
    (backs : List (Option ByteBuf)) (gb : Option ByteBuf) (ec : Int) (q : Nat)
    (k : Nat)
    (hk : k < 2 * ((fronts.length + CARDS_PER_PAGE - 1) / CARDS_PER_PAGE)) :
    ((jpeg_pages_of dec fronts backs gb ec q)[k]?).map
        (fun im => im.content.label) =
      some (some ⟨k / 2 + 1, if k % 2 = 0 then Side.front else Side.back⟩) := by
  simp only [jpeg_pages_of]
  rw [jpeg_pages_loop_getElem _ _ _ _ hk]
  by_cases h0 : k % 2 = 0
  · simp [h0, page_to_jpeg, front_page, new_page]
  · simp [h0, page_to_jpeg, back_page, new_page]

/-- C2: for `N ≥ 1` fronts, `build_pdf` emits exactly
`ceil(N / CARDS_PER_PAGE)` front pages and as many back pages in strict
alternation front(1), back(1), front(2), back(2), …, totalling
`2 * ceil(N / CARDS_PER_PAGE)` output pages. -/
theorem build_pdf_page_count_and_alternation (dec : Decode)
    (fronts : List ByteBuf) (backs : List (Option ByteBuf))
    (gb : Option ByteBuf) (ec : Int) (q : Nat) (psz : String)
    (hN : 1 ≤ fronts.length) :
    ∃ ps, build_pdf dec fronts backs gb ec q psz = Except.ok ps ∧
      ps.length = 2 * ((fronts.length + CARDS_PER_PAGE - 1) / CARDS_PER_PAGE) ∧
      ∀ k, (hk : k < ps.length) →
        ps[k].image.content.label =
          some ⟨k / 2 + 1, if k % 2 = 0 then Side.front else Side.back⟩ := by
  have hne : fronts ≠ [] := by
    cases fronts
    · simp at hN
    · simp
  refine ⟨_, build_pdf_ok_of_ne_nil dec fronts backs gb ec q psz hne, ?_, ?_⟩
  · rw [List.length_map, jpeg_pages_of_length]
  · intro k hk
    rw [List.length_map, jpeg_pages_of_length] at hk
    rw [List.getElem_map]
    have hlab := jpeg_pages_of_label dec fronts backs gb ec q k hk
    rw [List.getElem?_eq_getElem (by rw [jpeg_pages_of_length]; exact hk)]
      at hlab
    simpa using hlab

theorem build_pdf_page_count_and_alternation_witness :
    1 ≤ ([[0]] : List ByteBuf).length ∧
    (∃ ps, build_pdf (fun _ => true) [[0]] [none] none 10 90 "letter" =
        Except.ok ps ∧
      ps.length =
        2 * ((([[0]] : List ByteBuf).length + CARDS_PER_PAGE - 1) /
          CARDS_PER_PAGE) ∧
      ∀ k, (hk : k < ps.length) →
        ps[k].image.content.label =
          some ⟨k / 2 + 1, if k % 2 = 0 then Side.front else Side.back⟩) :=
  ⟨by decide,
   build_pdf_page_count_and_alternation (fun _ => true) [[0]] [none] none
     10 90 "letter" (by decide)⟩

/-- C9: under at least one front, every output page is at the declared
physical size (11 in × 8.5 in, i.e. 792 pt × 612 pt), every embedded raster
is the full 3300 × 2550 page at 300 PPI with the requested fixed JPEG
quality, and the packer embeds the JPEG streams unchanged (the output is
exactly the JPEG list wrapped one-per-page). -/
theorem build_pdf_page_size_and_raster (dec : Decode)
    (fronts : List ByteBuf) (backs : List (Option ByteBuf))
    (gb : Option ByteBuf) (ec : Int) (q : Nat) (psz : String)
    (h : fronts ≠ []) :
    build_pdf dec fronts backs gb ec q psz =
      Except.ok ((jpeg_pages_of dec fronts backs gb ec q).map (fun im =>
        { width_pt := in_to_pt 11, height_pt := in_to_pt (17 / 2),
          image := im })) ∧
    in_to_pt 11 = 792 ∧ in_to_pt (17 / 2) = 612 ∧
    ∀ im ∈ jpeg_pages_of dec fronts backs gb ec q,
      im.width = PAGE_W_PX ∧ im.height = PAGE_H_PX ∧
      im.dpi = (PPI, PPI) ∧ im.quality = q := by
  refine ⟨build_pdf_ok_of_ne_nil dec fronts backs gb ec q psz h,
    by norm_num [in_to_pt], by norm_num [in_to_pt], ?_⟩
  intro im him
  simp only [jpeg_pages_of] at him
  obtain ⟨p, hp, hor | hor⟩ := jpeg_pages_loop_mem _ _ _ _ him <;>
    subst hor <;> exact ⟨rfl, rfl, rfl, rfl⟩

theorem build_pdf_page_size_and_raster_witness :
    ([[0]] : List ByteBuf) ≠ [] ∧
    (build_pdf (fun _ => true) [[0]] [none] none 10 90 "letter" =
      Except.ok ((jpeg_pages_of (fun _ => true) [[0]] [none] none 10 90).map
        (fun im =>
          { width_pt := in_to_pt 11, height_pt := in_to_pt (17 / 2),
            image := im })) ∧
    in_to_pt 11 = 792 ∧ in_to_pt (17 / 2) = 612 ∧
    ∀ im ∈ jpeg_pages_of (fun _ => true) [[0]] [none] none 10 90,
      im.width = PAGE_W_PX ∧ im.height = PAGE_H_PX ∧
      im.dpi = (PPI, PPI) ∧ im.quality = 90) :=
  ⟨by decide,
   build_pdf_page_size_and_raster (fun _ => true) [[0]] [none] none 10 90
     "letter" (by decide)⟩

/-- C5: the back-page slot source is the per-card back image when present,
otherwise the generic fallback, otherwise nothing; and a document from one
front with no backs and no generic back has exactly two pages whose back
page holds zero placed card images but still carries the registration marks
and the footer label. -/
theorem back_source_selection_and_blank_back (dec : Decode) (f : ByteBuf)
    (ec : Int) (q : Nat) (psz : String) :
    (∀ (bi : List (Option ByteBuf)) (gb : Option ByteBuf) (idx : Nat)
        (b : ByteBuf), bi.getD idx none = some b →
        back_source bi gb idx = some b) ∧
    (∀ (bi : List (Option ByteBuf)) (gb : Option ByteBuf) (idx : Nat),
        bi.getD idx none = none → back_source bi gb idx = gb) ∧
    (∃ fp bp, build_pdf dec [f] [none] none ec q psz = Except.ok [fp, bp] ∧
      bp.image.content.placements = [] ∧
      bp.image.content.marks = draw_reg_marks ∧
      bp.image.content.label = some ⟨1, Side.back⟩) := by
  refine ⟨fun bi gb idx b hb => ?_, fun bi gb idx hn => ?_, ?_⟩
  · have hne : bi ≠ [] := by
      intro he
      rw [he] at hb
      simp at hb
    rw [back_source, if_pos ⟨hne, by rw [hb]; simp⟩]
    exact hb
  · rw [back_source]
    rw [if_neg]
    intro hcon
    exact hcon.2 hn
  · have hjp : jpeg_pages_of dec [f] [none] none ec q =
        [page_to_jpeg (front_page dec [f] ec 0 0 1) q,
         page_to_jpeg (back_page dec [none] none ec 0 0 1) q] := by
      simp [jpeg_pages_of, jpeg_pages_loop, CARDS_PER_PAGE, COLS, ROWS]
    refine ⟨⟨in_to_pt 11, in_to_pt (17 / 2),
        page_to_jpeg (front_page dec [f] ec 0 0 1) q⟩,
      ⟨in_to_pt 11, in_to_pt (17 / 2),
        page_to_jpeg (back_page dec [none] none ec 0 0 1) q⟩, ?_, ?_, ?_, ?_⟩
    · rw [build_pdf_ok_of_ne_nil dec [f] [none] none ec q psz (by simp), hjp]
      rfl
    · simp [page_to_jpeg, back_page, back_source, new_page, List.range_succ]
    · rfl
    · rfl

theorem back_source_selection_and_blank_back_witness :
    back_source [some [1]] (some [2]) 0 = some [1] ∧
    back_source [none] (some [2]) 0 = some [2] :=
  ⟨(back_source_selection_and_blank_back (fun _ => true) [0] 10 90
      "letter").1 [some [1]] (some [2]) 0 [1] (by decide),
   (back_source_selection_and_blank_back (fun _ => true) [0] 10 90
      "letter").2.1 [none] (some [2]) 0 (by decide)⟩

/-- C7: when every resolved front is absent the request is rejected with the
HTTP 400 message before `build_pdf` is ever entered, and the packer error
for an empty page sequence can never escape this pipeline: its only error is
the upstream rejection. -/
theorem api_pdf_zero_fronts_rejected (dec : Decode)
    (fl bl : List (Option ByteBuf)) (gb : Option ByteBuf) (ec : Int) :
    ((∀ fb ∈ fl, fb = none) →
      api_pdf_pipeline dec fl bl gb ec =
        Except.error "No cards were successfully downloaded.") ∧
    (∀ e, api_pdf_pipeline dec fl bl gb ec = Except.error e →
      e = "No cards were successfully downloaded.") := by
  constructor
  · intro h
    have hpairs : (fl.zip bl).filterMap (fun fb =>
        match fb.1 with
        | some f => some (f, fb.2)
        | none => none) = ([] : List (ByteBuf × Option ByteBuf)) := by
      rw [List.filterMap_eq_nil_iff]
      rintro ⟨a1, a2⟩ ha
      have h1 : a1 ∈ fl := (List.of_mem_zip ha).1
      rw [h a1 h1]
    simp [api_pdf_pipeline, hpairs]
  · intro e he
    simp only [api_pdf_pipeline] at he
    by_cases hf : ((fl.zip bl).filterMap (fun fb =>
        match fb.1 with
        | some f => some (f, fb.2)
        | none => none)).map Prod.fst = ([] : List ByteBuf)
    · rw [if_pos hf] at he
      exact (Except.error.injEq _ _).mp he.symm
    · rw [if_neg hf] at he
      rw [build_pdf_ok_of_ne_nil _ _ _ _ _ _ _ hf] at he
      exact absurd he (by simp)

theorem api_pdf_zero_fronts_rejected_witness :
    api_pdf_pipeline (fun _ => true) [none] [none] none 10 =
      Except.error "No cards were successfully downloaded." :=
  (api_pdf_zero_fronts_rejected (fun _ => true) [none] [none] none 10).1
    (by simp)

/-- C8: every rendered page, front and back alike and for any inputs,
carries the identical mark list `draw_reg_marks`, which is exactly the
three fiducials: the filled square of side `REG_SIZE_PX` at inset
`REG_INSET_PX` top-left, an L-shape at the top-right and an L-shape at the
bottom-left, each opening toward the page interior (its open corner is the
bounding-box corner nearest the page centre). -/
theorem pages_carry_three_fiducials (dec : Decode) (fronts : List ByteBuf)
    (backs : List (Option ByteBuf)) (gb : Option ByteBuf) (ec : Int)
    (q : Nat) :
    (reg_fiducials.flatMap Fiducial.rects = draw_reg_marks ∧
     reg_fiducials.length = 3 ∧
     reg_fiducials[0]? = some (.filledSquare (REG_INSET_PX : Int)
       (REG_INSET_PX : Int) (REG_SIZE_PX : Int)) ∧
     reg_fiducials[1]? = some (.lShape ⟨3000, 112, 3188, 124⟩
       ⟨3176, 112, 3188, 300⟩) ∧
     lShapeOpensToward ⟨3000, 112, 3188, 124⟩ ⟨3176, 112, 3188, 300⟩
       1650 1275 = true ∧
     reg_fiducials[2]? = some (.lShape ⟨112, 2426, 300, 2438⟩
       ⟨112, 2250, 124, 2438⟩) ∧
     lShapeOpensToward ⟨112, 2426, 300, 2438⟩ ⟨112, 2250, 124, 2438⟩
       1650 1275 = true) ∧
    ∀ jp ∈ jpeg_pages_of dec fronts backs gb ec q,
      jp.content.marks = draw_reg_marks := by
  refine ⟨by decide, ?_⟩
  intro jp hjp
  simp only [jpeg_pages_of] at hjp
  obtain ⟨p, hp, hor | hor⟩ := jpeg_pages_loop_mem _ _ _ _ hjp <;>
    subst hor <;> rfl

theorem pages_carry_three_fiducials_witness :
    (page_to_jpeg (front_page (fun _ => false) [[0]] 10 0 0 1)
        90).content.marks = draw_reg_marks :=
  (pages_carry_three_fiducials (fun _ => false) [[0]] [none] none 10 90).2
    (page_to_jpeg (front_page (fun _ => false) [[0]] 10 0 0 1) 90)
    (List.mem_cons_self _ _)

end ProxyForge
